import Mathlib

/-!
Verification of the NovaIR declarative control runtime against its
specification.  The Python sources under `src/` are shallowly embedded:
Python floats are modelled as exact rationals (`ℚ`), Python ints as `ℤ`,
Python dicts with string keys as insertion-ordered association lists, and
fallible code (code that can raise) as `Option`-valued functions where
`none` marks the exception.
-/

namespace NovaIR

/-! ## AST data model (src/parser/ast.py) -/

/-- Constraint severity levels (`Severity` in ast.py). -/
inductive Severity where
  | critical
  | warning
deriving DecidableEq, Repr

/-- Action cost levels (`CostLevel` in ast.py). -/
inductive CostLevel where
  | low
  | medium
  | high
deriving DecidableEq, Repr

/-- Objective optimization types (`ObjectiveType` in ast.py). -/
inductive ObjectiveType where
  | target
  | min
  | max
deriving DecidableEq, Repr

/-- Tick execution modes (`TickMode` in ast.py). -/
inductive TickMode where
  | continuous
  | reactive
deriving DecidableEq, Repr

/-- A numeric value with optional unit (`ValueWithUnit` in ast.py). -/
structure ValueWithUnit where
  value : ℚ
  unit : Option String := none
deriving DecidableEq, Repr

/-- An action effect (`Effect` in ast.py): `max_effect = none` means a
single-valued effect. -/
structure Effect where
  metric : String
  min_effect : ValueWithUnit
  max_effect : Option ValueWithUnit := none
deriving DecidableEq, Repr

/-- An action parameter with an integer range (`Parameter` in ast.py). -/
structure Parameter where
  name : String
  min_value : ℤ
  max_value : ℤ
deriving DecidableEq, Repr

/-- A state binding `name <- source.path` (`State` in ast.py); the source
path is its list of identifier segments. -/
structure StateDecl where
  name : String
  source : List String
deriving DecidableEq, Repr

/-- A constraint declaration (`Constraint` in ast.py); the operator is kept
as its source string, exactly as the Python code stores it. -/
structure Constraint where
  name : String
  metric : String
  operator : String
  value : ValueWithUnit
  severity : Severity
deriving DecidableEq, Repr

/-- An objective declaration (`Objective` in ast.py). -/
structure Objective where
  name : String
  metric : String
  type : ObjectiveType
  target_value : Option ValueWithUnit := none
  priority : ℤ := 5
deriving DecidableEq, Repr

/-- An action declaration (`Action` in ast.py). -/
structure Action where
  name : String
  parameters : List Parameter := []
  effects : List Effect := []
  cost : CostLevel := CostLevel.low
deriving DecidableEq, Repr

/-- Tick configuration (`Tick` in ast.py). -/
structure Tick where
  interval_ms : ℤ := 100
  action_threshold : ℚ := 1/2
  mode : TickMode := TickMode.continuous
deriving DecidableEq, Repr

/-- The root AST node (`System` in ast.py). -/
structure System where
  name : String
  version : Option String := none
  states : List StateDecl := []
  constraints : List Constraint := []
  objectives : List Objective := []
  actions : List Action := []
  tick : Option Tick := none
deriving DecidableEq, Repr

/-! ## State manager (src/runtime/state.py)

Only `current` and the `get`/`update`/`update_all` operations are needed by
the claims; `current` is modelled as a partial map from names to values. -/

/-- The state manager's `current` dict: `none` means the key is absent. -/
def StateMap : Type := String → Option ℚ

/-- `StateManager.get(name, default=0.0)`. -/
def StateMap.get (st : StateMap) (name : String) : ℚ :=
  (st name).getD 0

/-- `StateManager.update_all(values)`: `self.current.update(values)`, the
incoming dict wins on common keys. -/
def StateMap.update_all (st : StateMap) (values : StateMap) : StateMap :=
  fun n => match values n with
    | some v => some v
    | none => st n

/-! ## Scorer (src/runtime/scorer.py) -/

/-- Type of constraint violation (`ViolationType` in scorer.py). -/
inductive ViolationType where
  | none
  | warning
  | critical
deriving DecidableEq, Repr

/-- Status of a constraint evaluation (`ConstraintStatus` in scorer.py). -/
structure ConstraintStatus where
  constraint : Constraint
  current_value : ℚ
  threshold : ℚ
  violation : ViolationType
  margin : ℚ
deriving DecidableEq, Repr

/-- `ConstraintStatus.is_violated`. -/
def ConstraintStatus.is_violated (cs : ConstraintStatus) : Bool :=
  cs.violation != ViolationType.none

/-- A candidate before scoring (`ActionCandidate` as produced by
`generate_candidates`): an action together with an insertion-ordered
parameter assignment. -/
structure ActionCandidate where
  action : Action
  parameters : List (String × ℤ) := []
deriving DecidableEq, Repr

/-- A candidate after `score_candidate` has filled in its scoring fields. -/
structure ScoredCandidate where
  action : Action
  parameters : List (String × ℤ)
  score : ℚ
  constraint_resolution_score : ℚ
  objective_score : ℚ
  cost_penalty : ℚ
  predicted_effects : List (String × ℚ)
deriving DecidableEq, Repr

/-- `Scorer.COST_PENALTIES` (a total dict on the three cost levels, read
with default 0.0). -/
def COST_PENALTIES : CostLevel → ℚ
  | CostLevel.low => 0
  | CostLevel.medium => 1/5
  | CostLevel.high => 1/2

/-- `Scorer._evaluate_constraint(current, operator, threshold)`: the margin,
negative meaning violated.  The Python literal `0.001` is the rational
`1/1000`. -/
def evaluate_constraint (current : ℚ) (operator : String) (threshold : ℚ) : ℚ :=
  if operator = "<=" then threshold - current
  else if operator = ">=" then current - threshold
  else if operator = "<" then threshold - current - 1/1000
  else if operator = ">" then current - threshold - 1/1000
  else if operator = "==" then -|current - threshold|
  else if operator = "!=" then |current - threshold| - 1/1000
  else 0

/-- `Scorer.check_constraints()`: evaluate every declared constraint against
the current state. -/
def check_constraints (sys : System) (st : StateMap) : List ConstraintStatus :=
  sys.constraints.map fun c =>
    let current := st.get c.metric
    let threshold := c.value.value
    let margin := evaluate_constraint current c.operator threshold
    let violation :=
      if margin < 0 then
        if c.severity = Severity.critical then ViolationType.critical
        else ViolationType.warning
      else ViolationType.none
    { constraint := c, current_value := current, threshold := threshold,
      violation := violation, margin := margin }

/-- `Scorer.get_all_violations()`. -/
def get_all_violations (sys : System) (st : StateMap) : List ConstraintStatus :=
  (check_constraints sys st).filter fun c => c.violation != ViolationType.none

/-- `Scorer._generate_parameter_combinations(action)`: one parameter yields
its endpoints and midpoint, several parameters yield a single all-midpoints
assignment.  Python `//` is floor division, `Int.fdiv`. -/
def generate_parameter_combinations (a : Action) : List (List (String × ℤ)) :=
  match a.parameters with
  | [p] =>
      [p.min_value, Int.fdiv (p.min_value + p.max_value) 2, p.max_value].map
        fun v => [(p.name, v)]
  | ps => [ps.map fun p => (p.name, Int.fdiv (p.min_value + p.max_value) 2)]

/-- `Scorer.generate_candidates()`. -/
def generate_candidates (sys : System) : List ActionCandidate :=
  sys.actions.flatMap fun a =>
    if a.parameters.isEmpty then [{ action := a }]
    else (generate_parameter_combinations a).map fun ps =>
      { action := a, parameters := ps }

/-- Value that `Scorer.predict_effects` assigns to one effect of a
candidate.  `none` models the `ZeroDivisionError` Python raises when the
interpolating parameter has a degenerate range (`max_value = min_value`). -/
def effect_value (cand : ActionCandidate) (e : Effect) : Option ℚ :=
  match e.max_effect with
  | some maxe =>
      let min_eff := e.min_effect.value
      let max_eff := maxe.value
      match cand.parameters with
      | (param_name, param_value) :: _ =>
          match cand.action.parameters.find? (fun p => p.name == param_name) with
          | some param_def =>
              if param_def.max_value = param_def.min_value then none
              else
                some (min_eff + (max_eff - min_eff) *
                  (((param_value - param_def.min_value : ℤ) : ℚ) /
                   ((param_def.max_value - param_def.min_value : ℤ) : ℚ)))
          | none => some ((min_eff + max_eff) / 2)
      | [] => some ((min_eff + max_eff) / 2)
  | none => some e.min_effect.value

/-- The `for effect in candidate.action.effects` loop of
`Scorer.predict_effects`: effects are evaluated in declaration order and the
first exception propagates. -/
def predict_effects_list (cand : ActionCandidate) :
    List Effect → Option (List (String × ℚ))
  | [] => some []
  | e :: es =>
      match effect_value cand e with
      | none => none
      | some v =>
          match predict_effects_list cand es with
          | none => none
          | some rest => some ((e.metric, v) :: rest)

/-- `Scorer.predict_effects(candidate)`: the predicted-effects dict, as the
insertion-ordered list of `(metric, value)` pairs. -/
def predict_effects (cand : ActionCandidate) : Option (List (String × ℚ)) :=
  predict_effects_list cand cand.action.effects

/-- Python dict lookup on an insertion-ordered association list: the last
binding of a key wins, `none` when the key is absent. -/
def dictGet? (l : List (String × ℚ)) (k : String) : Option ℚ :=
  (l.reverse.find? fun p => p.1 == k).map fun p => p.2

/-- Amount one violation adds to the resolution score inside the loop of
`Scorer._score_constraint_resolution`. -/
def violation_delta (st : StateMap) (effs : List (String × ℚ))
    (v : ConstraintStatus) : ℚ :=
  match dictGet? effs v.constraint.metric with
  | some effect =>
      let current := st.get v.constraint.metric
      let threshold := v.threshold
      let op := v.constraint.operator
      if op = "<=" ∨ op = "<" then
        if effect < 0 then min |effect| (current - threshold) * 2 else 0
      else if op = ">=" ∨ op = ">" then
        if 0 < effect then min effect (threshold - current) * 2 else 0
      else 0
  | none => 0

/-- The accumulation loop of `Scorer._score_constraint_resolution`. -/
def resolution_fold (st : StateMap) (effs : List (String × ℚ)) :
    ℚ → List ConstraintStatus → ℚ
  | acc, [] => acc
  | acc, v :: vs => resolution_fold st effs (acc + violation_delta st effs v) vs

/-- `Scorer._score_constraint_resolution(candidate, violations)`, expressed
over the candidate's predicted effects. -/
def score_constraint_resolution (st : StateMap) (effs : List (String × ℚ))
    (violations : List ConstraintStatus) : ℚ :=
  if violations.isEmpty then 0
  else resolution_fold st effs 0 violations

/-- Contribution of one objective inside `Scorer._score_objectives`; `none`
models the `AttributeError` raised when a target-typed objective carries no
target value. -/
def objective_contribution (st : StateMap) (effs : List (String × ℚ))
    (o : Objective) : Option ℚ :=
  let priority_weight := (o.priority : ℚ) / 10
  match dictGet? effs o.metric with
  | some effect =>
      let current := st.get o.metric
      match o.type with
      | ObjectiveType.min =>
          some (if effect < 0 then |effect| * priority_weight
                else -(effect * priority_weight * (1/2)))
      | ObjectiveType.max =>
          some (if 0 < effect then effect * priority_weight
                else -(|effect| * priority_weight * (1/2)))
      | ObjectiveType.target =>
          match o.target_value with
          | some tv =>
              let target := tv.value
              let new_value := current + effect
              let old_distance := |current - target|
              let new_distance := |new_value - target|
              some (if new_distance < old_distance then
                      (old_distance - new_distance) * priority_weight
                    else -((new_distance - old_distance) * priority_weight * (1/2)))
          | none => none
  | none => some 0

/-- The accumulation loop of `Scorer._score_objectives`; stops with `none`
at the first objective whose contribution raises. -/
def objectives_fold (st : StateMap) (effs : List (String × ℚ)) :
    ℚ → List Objective → Option ℚ
  | acc, [] => some acc
  | acc, o :: os =>
      match objective_contribution st effs o with
      | none => none
      | some d => objectives_fold st effs (acc + d) os

/-- `Scorer._score_objectives(candidate)`. -/
def score_objectives (sys : System) (st : StateMap)
    (effs : List (String × ℚ)) : Option ℚ :=
  let total_priority := (sys.objectives.map Objective.priority).sum
  if total_priority = 0 then some 0
  else objectives_fold st effs 0 sys.objectives

/-- `Scorer.score_candidate(candidate, violations)`: predicts effects and
fills in all scoring fields; `none` when the Python code would raise. -/
def score_candidate (sys : System) (st : StateMap)
    (violations : List ConstraintStatus) (cand : ActionCandidate) :
    Option ScoredCandidate :=
  match predict_effects cand with
  | none => none
  | some effs =>
      let constraint_score := score_constraint_resolution st effs violations
      match score_objectives sys st effs with
      | none => none
      | some objective_score =>
          let cost_penalty := COST_PENALTIES cand.action.cost
          let total :=
            if violations.isEmpty then objective_score - cost_penalty
            else constraint_score * 10 + objective_score - cost_penalty
          some { action := cand.action, parameters := cand.parameters,
                 score := total, constraint_resolution_score := constraint_score,
                 objective_score := objective_score, cost_penalty := cost_penalty,
                 predicted_effects := effs }

/-- Stable insertion of a candidate into a score-descending list: the new
element goes in front of the first element whose score does not exceed it. -/
def insertDesc (x : ScoredCandidate) : List ScoredCandidate → List ScoredCandidate
  | [] => [x]
  | y :: ys => if y.score ≤ x.score then x :: y :: ys else y :: insertDesc x ys

/-- `candidates.sort(key=lambda c: c.score, reverse=True)`: Python's sort is
stable, so it is the stable descending sort. -/
def sortDesc : List ScoredCandidate → List ScoredCandidate
  | [] => []
  | x :: xs => insertDesc x (sortDesc xs)

/-- The `for candidate in candidates` scoring loop of
`Scorer.select_best_action`: score every candidate in order, the first
exception propagating. -/
def score_all (sys : System) (st : StateMap)
    (violations : List ConstraintStatus) :
    List ActionCandidate → Option (List ScoredCandidate)
  | [] => some []
  | c :: cs =>
      match score_candidate sys st violations c with
      | none => none
      | some sc =>
          match score_all sys st violations cs with
          | none => none
          | some rest => some (sc :: rest)

/-- `Scorer.select_best_action(threshold)`.  The outer `Option` models an
exception escaping from scoring; the inner one is the Python `None` /
candidate result. -/
def select_best_action (sys : System) (st : StateMap) (threshold : ℚ) :
    Option (Option ScoredCandidate) :=
  let violations := get_all_violations sys st
  let cands := generate_candidates sys
  match score_all sys st violations cands with
  | none => none
  | some scored =>
      let pool :=
        if violations.isEmpty then scored
        else
          let resolving :=
            scored.filter fun c => decide (0 < c.constraint_resolution_score)
          if resolving.isEmpty then scored else resolving
      match sortDesc pool with
      | top :: _ => some (if threshold < top.score then some top else none)
      | [] => some none

/-! ## Theorems for claim C1 -/

/-- Margin formula for the operator string `<=`. -/
lemma evaluate_constraint_le (x t : ℚ) : evaluate_constraint x "<=" t = t - x := by
  simp [evaluate_constraint]

/-- Margin formula for the operator string `>=`. -/
lemma evaluate_constraint_ge (x t : ℚ) : evaluate_constraint x ">=" t = x - t := by
  simp [evaluate_constraint]

/-- Margin formula for the operator string `<`. -/
lemma evaluate_constraint_lt (x t : ℚ) :
    evaluate_constraint x "<" t = t - x - 1/1000 := by
  simp [evaluate_constraint]

/-- Margin formula for the operator string `>`. -/
lemma evaluate_constraint_gt (x t : ℚ) :
    evaluate_constraint x ">" t = x - t - 1/1000 := by
  simp [evaluate_constraint]

/-- Margin formula for the operator string `==`. -/
lemma evaluate_constraint_eq (x t : ℚ) :
    evaluate_constraint x "==" t = -|x - t| := by
  simp [evaluate_constraint]

/-- Margin formula for the operator string `!=`. -/
lemma evaluate_constraint_ne (x t : ℚ) :
    evaluate_constraint x "!=" t = |x - t| - 1/1000 := by
  simp [evaluate_constraint]

/-- C1 is refuted at `current = 0`, `operator = "<"`, `threshold = 1/2000`:
the mathematical constraint `0 < 1/2000` is satisfied, yet the computed
margin is negative, so `check_constraints` would mark it violated. -/
theorem c1_margin_neg_but_satisfied :
    evaluate_constraint 0 "<" (1/2000) < 0 ∧ (0 : ℚ) < 1/2000 := by
  rw [evaluate_constraint_lt]
  constructor <;> norm_num

/-- C1 (amended): for the non-strict operators and `==` the margin is
nonnegative exactly when the mathematical constraint holds; for the strict
operators `<`, `>` and for `!=` the margin is nonnegative exactly when the
constraint holds with slack at least `ε = 1e-3` (so a nonnegative margin
still implies the constraint, but a constraint satisfied by less than `ε`
is reported violated).  Moreover `check_constraints` marks a constraint
violated exactly when its margin is negative. -/
theorem c1_margin_characterization :
    (∀ x t : ℚ,
      (0 ≤ evaluate_constraint x "<=" t ↔ x ≤ t) ∧
      (0 ≤ evaluate_constraint x ">=" t ↔ t ≤ x) ∧
      (0 ≤ evaluate_constraint x "==" t ↔ x = t) ∧
      (0 ≤ evaluate_constraint x "<" t ↔ x ≤ t - 1/1000) ∧
      (0 ≤ evaluate_constraint x ">" t ↔ t + 1/1000 ≤ x) ∧
      (0 ≤ evaluate_constraint x "!=" t ↔ 1/1000 ≤ |x - t|)) ∧
    (∀ sys st, ∀ cs ∈ check_constraints sys st,
      cs.violation ≠ ViolationType.none ↔ cs.margin < 0) := by
  constructor
  · intro x t
    refine ⟨?_, ?_, ?_, ?_, ?_, ?_⟩
    · rw [evaluate_constraint_le]; constructor <;> intro h <;> linarith
    · rw [evaluate_constraint_ge]; constructor <;> intro h <;> linarith
    · rw [evaluate_constraint_eq]
      constructor
      · intro h
        have h0 : |x - t| ≤ 0 := by linarith
        have h1 : |x - t| = 0 := le_antisymm h0 (abs_nonneg _)
        have h2 := abs_eq_zero.mp h1
        linarith
      · intro h; subst h; simp
    · rw [evaluate_constraint_lt]; constructor <;> intro h <;> linarith
    · rw [evaluate_constraint_gt]; constructor <;> intro h <;> linarith
    · rw [evaluate_constraint_ne]; constructor <;> intro h <;> linarith
  · intro sys st cs hcs
    simp only [check_constraints, List.mem_map] at hcs
    obtain ⟨c, _, rfl⟩ := hcs
    by_cases h : evaluate_constraint (st.get c.metric) c.operator c.value.value < 0
    · by_cases hs : c.severity = Severity.critical <;> simp [h, hs]
    · simp [h]

/-- Witness for the amended C1 at concrete inputs: `3 ≤ 5` gives a
nonnegative margin for `<=`, and a margin below `ε` makes `<` report a
violation even though `0 < 1/2000`. -/
theorem c1_margin_characterization_witness :
    (0 : ℚ) ≤ evaluate_constraint 3 "<=" 5 :=
  (c1_margin_characterization.1 3 5).1.mpr (by norm_num)

/-! ## Theorems for claim C3 -/

/-- C3: whenever `select_best_action` completes without raising and returns
a candidate, that candidate's total score strictly exceeds the action
threshold. -/
theorem c3_selected_above_threshold (sys : System) (st : StateMap)
    (threshold : ℚ) (c : ScoredCandidate)
    (h : select_best_action sys st threshold = some (some c)) :
    threshold < c.score := by
  unfold select_best_action at h
  dsimp only [] at h
  split at h
  · exact absurd h (by simp)
  · split at h
    · split at h
      next hlt =>
        simp only [Option.some.injEq] at h
        subst h
        exact hlt
      next => simp at h
    · simp at h

/-- One-state, one-objective, one-action system for the C3 witness. -/
def wSys3 : System :=
  { name := "demo",
    states := [{ name := "temp", source := ["sensors", "temp"] }],
    objectives := [{ name := "o", metric := "temp", type := ObjectiveType.min,
                     priority := 10 }],
    actions := [{ name := "cool",
                  effects := [{ metric := "temp", min_effect := { value := -5 } }] }] }

/-- Current state for the C3 witness: `temp = 50`. -/
def wSt3 : StateMap := fun n => if n = "temp" then some 50 else none

/-- The candidate `select_best_action` returns on `wSys3`/`wSt3`. -/
def wTop3 : ScoredCandidate :=
  { action := { name := "cool",
                effects := [{ metric := "temp", min_effect := { value := -5 } }] },
    parameters := [], score := 5, constraint_resolution_score := 0,
    objective_score := 5, cost_penalty := 0,
    predicted_effects := [("temp", -5)] }

/-- Witness for C3: on the concrete thermostat-like system the selector
returns `wTop3`, whose score 5 exceeds the threshold 1/2. -/
theorem c3_selected_above_threshold_witness : (1 : ℚ)/2 < wTop3.score :=
  c3_selected_above_threshold wSys3 wSt3 (1/2) wTop3 (by
    norm_num [select_best_action, get_all_violations, check_constraints,
      generate_candidates, wSys3, wSt3, wTop3, score_all, score_candidate,
      predict_effects, predict_effects_list, effect_value, score_objectives,
      objectives_fold, objective_contribution, score_constraint_resolution,
      dictGet?, COST_PENALTIES, sortDesc, insertDesc, StateMap.get])

/-! ## Theorems for claim C2 -/

/-- Inserting into the stable descending order adds exactly one element. -/
lemma mem_insertDesc (x : ScoredCandidate) (l : List ScoredCandidate)
    (a : ScoredCandidate) : a ∈ insertDesc x l ↔ a = x ∨ a ∈ l := by
  induction l with
  | nil => simp [insertDesc]
  | cons y ys ih =>
      by_cases hc : y.score ≤ x.score
      · simp [insertDesc, hc]
      · simp [insertDesc, hc, ih]
        tauto

/-- The stable descending sort is a permutation at the level of membership. -/
lemma mem_sortDesc (l : List ScoredCandidate) (a : ScoredCandidate) :
    a ∈ sortDesc l ↔ a ∈ l := by
  induction l with
  | nil => simp [sortDesc]
  | cons x xs ih => simp [sortDesc, mem_insertDesc, ih]

/-- C2: when violations exist, the returned candidate always comes from the
scored candidate set, and as soon as some scored candidate has a positive
constraint-resolution score the returned candidate has one too (the
selector restricted itself to that subset). -/
theorem c2_restricts_to_resolving (sys : System) (st : StateMap)
    (threshold : ℚ) (scored : List ScoredCandidate) (c : ScoredCandidate)
    (hscore : score_all sys st (get_all_violations sys st)
      (generate_candidates sys) = some scored)
    (hneq : get_all_violations sys st ≠ [])
    (hsel : select_best_action sys st threshold = some (some c)) :
    c ∈ scored ∧
      ((∃ c' ∈ scored, 0 < c'.constraint_resolution_score) →
        0 < c.constraint_resolution_score) := by
  have hvi : (get_all_violations sys st).isEmpty = false :=
    List.isEmpty_eq_false.mpr hneq
  unfold select_best_action at hsel
  dsimp only [] at hsel
  rw [hscore, hvi] at hsel
  simp only [Bool.false_eq_true, if_false] at hsel
  by_cases hres :
      (List.filter (fun c => decide (0 < c.constraint_resolution_score))
        scored).isEmpty = true
  · rw [if_pos hres] at hsel
    have hno := List.filter_eq_nil_iff.mp (List.isEmpty_iff.mp hres)
    split at hsel
    next top tail heq =>
      split at hsel
      next hlt =>
        simp only [Option.some.injEq] at hsel
        subst hsel
        have hmem : top ∈ sortDesc scored := heq ▸ List.mem_cons_self _ _
        refine ⟨(mem_sortDesc scored top).mp hmem, ?_⟩
        rintro ⟨c', hc', hpos⟩
        exact absurd (decide_eq_true_eq.mpr hpos) (hno c' hc')
      next => simp at hsel
    next => simp at hsel
  · rw [if_neg hres] at hsel
    split at hsel
    next top tail heq =>
      split at hsel
      next hlt =>
        simp only [Option.some.injEq] at hsel
        subst hsel
        have hmem : top ∈ sortDesc
            (List.filter (fun c => decide (0 < c.constraint_resolution_score))
              scored) := heq ▸ List.mem_cons_self _ _
        have hf := (mem_sortDesc _ top).mp hmem
        have hft := List.mem_filter.mp hf
        exact ⟨hft.1, fun _ => decide_eq_true_eq.mp hft.2⟩
      next => simp at hsel
    next => simp at hsel

/-- A critical violation marker differs from the no-violation marker. -/
lemma violation_critical_ne_none :
    ViolationType.critical ≠ ViolationType.none := by decide

/-- Boolean form of `violation_critical_ne_none`, as used by the
`get_all_violations` filter. -/
lemma violation_critical_bne_none :
    (ViolationType.critical != ViolationType.none) = true := by decide

/-- One-constraint, one-action system for the C2 witness: the temperature
constraint is violated at `temp = 90` and the cooling action resolves it. -/
def wSys2 : System :=
  { name := "demo2",
    states := [{ name := "temp", source := ["sensors", "temp"] }],
    constraints := [{ name := "max_temp", metric := "temp", operator := "<=",
                      value := { value := 85 }, severity := Severity.critical }],
    actions := [{ name := "cool",
                  effects := [{ metric := "temp", min_effect := { value := -5 } }] }] }

/-- Current state for the C2 witness: `temp = 90`. -/
def wSt2 : StateMap := fun n => if n = "temp" then some 90 else none

/-- The single scored candidate arising on `wSys2`/`wSt2`: resolution score
`min 5 (90-85) * 2 = 10`, total `10 * 10 = 100`. -/
def wTop2 : ScoredCandidate :=
  { action := { name := "cool",
                effects := [{ metric := "temp", min_effect := { value := -5 } }] },
    parameters := [], score := 100, constraint_resolution_score := 10,
    objective_score := 0, cost_penalty := 0,
    predicted_effects := [("temp", -5)] }

/-- Witness for C2 at the concrete over-temperature system. -/
theorem c2_restricts_to_resolving_witness :
    wTop2 ∈ [wTop2] ∧
      ((∃ c' ∈ [wTop2], 0 < c'.constraint_resolution_score) →
        0 < wTop2.constraint_resolution_score) :=
  c2_restricts_to_resolving wSys2 wSt2 (1/2) [wTop2] wTop2
    (by norm_num [score_all, score_candidate, get_all_violations,
      check_constraints, generate_candidates, wSys2, wSt2, wTop2,
      predict_effects, predict_effects_list, effect_value, score_objectives,
      objectives_fold, objective_contribution, score_constraint_resolution,
      resolution_fold, violation_delta, evaluate_constraint, dictGet?,
      COST_PENALTIES, StateMap.get, violation_critical_ne_none,
      violation_critical_bne_none])
    (by norm_num [get_all_violations, check_constraints, wSys2, wSt2,
      evaluate_constraint, StateMap.get, violation_critical_ne_none,
      violation_critical_bne_none, List.filter_cons])
    (by norm_num [select_best_action, get_all_violations, check_constraints,
      generate_candidates, wSys2, wSt2, wTop2, score_all, score_candidate,
      predict_effects, predict_effects_list, effect_value, score_objectives,
      objectives_fold, objective_contribution, score_constraint_resolution,
      resolution_fold, violation_delta, evaluate_constraint, dictGet?,
      COST_PENALTIES, sortDesc, insertDesc, StateMap.get, List.filter_cons,
      violation_critical_ne_none, violation_critical_bne_none])

/-! ## Theorems for claim C8 -/

/-- Effect prediction never reads the action's cost level. -/
lemma effect_value_cost (a : Action) (ps : List (String × ℤ)) (cl : CostLevel)
    (e : Effect) :
    effect_value ⟨{ a with cost := cl }, ps⟩ e = effect_value ⟨a, ps⟩ e := rfl

/-- The effect loop never reads the action's cost level. -/
lemma predict_effects_list_cost (a : Action) (ps : List (String × ℤ))
    (cl : CostLevel) (es : List Effect) :
    predict_effects_list ⟨{ a with cost := cl }, ps⟩ es =
      predict_effects_list ⟨a, ps⟩ es := by
  induction es with
  | nil => rfl
  | cons e es ih => simp [predict_effects_list, ih, effect_value_cost]

/-- `predict_effects` never reads the action's cost level. -/
lemma predict_effects_cost (a : Action) (ps : List (String × ℤ))
    (cl : CostLevel) :
    predict_effects ⟨{ a with cost := cl }, ps⟩ = predict_effects ⟨a, ps⟩ :=
  predict_effects_list_cost a ps cl a.effects

/-- C8: otherwise-identical candidates are strictly ordered by cost level —
the low-cost variant scores above the medium-cost one, which scores above
the high-cost one (penalties 0, 1/5, 1/2). -/
theorem c8_cost_ordering (sys : System) (st : StateMap)
    (viols : List ConstraintStatus) (a : Action) (ps : List (String × ℤ))
    (sl sm sh : ScoredCandidate)
    (hl : score_candidate sys st viols ⟨{ a with cost := CostLevel.low }, ps⟩ = some sl)
    (hm : score_candidate sys st viols ⟨{ a with cost := CostLevel.medium }, ps⟩ = some sm)
    (hh : score_candidate sys st viols ⟨{ a with cost := CostLevel.high }, ps⟩ = some sh) :
    sh.score < sm.score ∧ sm.score < sl.score := by
  unfold score_candidate at hl hm hh
  rw [predict_effects_cost] at hl hm hh
  cases hpe : predict_effects ⟨a, ps⟩ with
  | none => rw [hpe] at hl; exact absurd hl (by simp)
  | some effs =>
      rw [hpe] at hl hm hh
      dsimp only [] at hl hm hh
      cases hso : score_objectives sys st effs with
      | none => rw [hso] at hl; exact absurd hl (by simp)
      | some os =>
          rw [hso] at hl hm hh
          dsimp only [COST_PENALTIES] at hl hm hh
          simp only [Option.some.injEq] at hl hm hh
          subst hl; subst hm; subst hh
          by_cases hv : viols.isEmpty <;> simp [hv] <;> norm_num

/-- Base action for the C8 witness. -/
def wAct8 : Action :=
  { name := "act", effects := [{ metric := "m", min_effect := { value := -2 } }] }

/-- Minimal system for the C8 witness (no objectives, no constraints). -/
def wSys8 : System := { name := "s8" }

/-- Empty state for the C8 witness. -/
def wSt8 : StateMap := fun _ => none

/-- Scored low-cost variant for the C8 witness. -/
def wSl8 : ScoredCandidate :=
  { action := { wAct8 with cost := CostLevel.low }, parameters := [],
    score := 0, constraint_resolution_score := 0, objective_score := 0,
    cost_penalty := 0, predicted_effects := [("m", -2)] }

/-- Scored medium-cost variant for the C8 witness. -/
def wSm8 : ScoredCandidate :=
  { action := { wAct8 with cost := CostLevel.medium }, parameters := [],
    score := -(1/5), constraint_resolution_score := 0, objective_score := 0,
    cost_penalty := 1/5, predicted_effects := [("m", -2)] }

/-- Scored high-cost variant for the C8 witness. -/
def wSh8 : ScoredCandidate :=
  { action := { wAct8 with cost := CostLevel.high }, parameters := [],
    score := -(1/2), constraint_resolution_score := 0, objective_score := 0,
    cost_penalty := 1/2, predicted_effects := [("m", -2)] }

/-- Witness for C8: the three concrete variants score 0, -1/5 and -1/2. -/
theorem c8_cost_ordering_witness :
    wSh8.score < wSm8.score ∧ wSm8.score < wSl8.score :=
  c8_cost_ordering wSys8 wSt8 [] wAct8 [] wSl8 wSm8 wSh8
    (by norm_num [score_candidate, predict_effects, predict_effects_list,
      effect_value, score_objectives, objectives_fold, objective_contribution,
      score_constraint_resolution, COST_PENALTIES, wAct8, wSys8, wSt8, wSl8])
    (by norm_num [score_candidate, predict_effects, predict_effects_list,
      effect_value, score_objectives, objectives_fold, objective_contribution,
      score_constraint_resolution, COST_PENALTIES, wAct8, wSys8, wSt8, wSm8])
    (by norm_num [score_candidate, predict_effects, predict_effects_list,
      effect_value, score_objectives, objectives_fold, objective_contribution,
      score_constraint_resolution, COST_PENALTIES, wAct8, wSys8, wSt8, wSh8])

/-! ## Theorems for claim C6 -/

/-- Candidate whose single parameter has the degenerate range `3..3`, taken
at its only admissible value `p = 3`, with a ranged effect `1 to 5`. -/
def c6bad : ActionCandidate :=
  { action := { name := "act",
                parameters := [{ name := "level", min_value := 3, max_value := 3 }],
                effects := [{ metric := "m", min_effect := { value := 1 },
                              max_effect := some { value := 5 } }] },
    parameters := [("level", 3)] }

/-- C6 is refuted at `c6bad`: the first-parameter value 3 lies in the closed
range `[3,3]`, yet `predict_effects` raises (`ZeroDivisionError`) instead of
producing an effect value in `[1,5]`. -/
theorem c6_degenerate_range_raises : predict_effects c6bad = none := by rfl

/-- Closed form of `effect_value` for a ranged effect interpolated along a
found parameter definition with a nondegenerate range. -/
lemma effect_value_interp (cand : ActionCandidate) (e : Effect)
    (pname : String) (p : ℤ) (rest : List (String × ℤ)) (pd : Parameter)
    (hi : ValueWithUnit)
    (hps : cand.parameters = (pname, p) :: rest)
    (hpd : cand.action.parameters.find? (fun q => q.name == pname) = some pd)
    (hne : ¬pd.max_value = pd.min_value)
    (he : e.max_effect = some hi) :
    effect_value cand e = some (e.min_effect.value +
      (hi.value - e.min_effect.value) *
        (((p - pd.min_value : ℤ) : ℚ) / ((pd.max_value - pd.min_value : ℤ) : ℚ))) := by
  unfold effect_value
  rw [he]
  dsimp only []
  rw [hps]
  dsimp only []
  rw [hpd]
  dsimp only []
  rw [if_neg hne]

/-- Under the hypotheses of `effect_value_interp`, every effect of the
candidate evaluates successfully. -/
lemma effect_value_total (cand : ActionCandidate)
    (pname : String) (p : ℤ) (rest : List (String × ℤ)) (pd : Parameter)
    (hps : cand.parameters = (pname, p) :: rest)
    (hpd : cand.action.parameters.find? (fun q => q.name == pname) = some pd)
    (hne : ¬pd.max_value = pd.min_value) (e : Effect) :
    (effect_value cand e).isSome := by
  cases hem : e.max_effect with
  | none => simp [effect_value, hem]
  | some hi => rw [effect_value_interp cand e pname p rest pd hi hps hpd hne hem]; rfl

/-- When every effect in a list evaluates successfully, the effect loop
returns the dict and records every effect's value in it. -/
lemma predict_effects_list_total (cand : ActionCandidate) (es : List Effect)
    (h : ∀ e ∈ es, (effect_value cand e).isSome) :
    ∃ l, predict_effects_list cand es = some l ∧
      ∀ e ∈ es, ∀ v, effect_value cand e = some v → (e.metric, v) ∈ l := by
  induction es with
  | nil => exact ⟨[], rfl, by simp⟩
  | cons e es ih =>
      obtain ⟨v, hv⟩ := Option.isSome_iff_exists.mp (h e (by simp))
      obtain ⟨l, hl, hmem⟩ := ih fun e' he' => h e' (by simp [he'])
      refine ⟨(e.metric, v) :: l, ?_, ?_⟩
      · simp [predict_effects_list, hv, hl]
      · rintro e' he' v' hv'
        rcases List.mem_cons.mp he' with rfl | he'
        · rw [hv] at hv'
          simp only [Option.some.injEq] at hv'
          subst hv'
          exact List.mem_cons_self _ _
        · exact List.mem_cons_of_mem _ (hmem e' he' v' hv')

/-- A linear interpolation with coefficient in `[0,1]` stays between the
two endpoints. -/
lemma interp_bounds (lo hi r : ℚ) (h0 : 0 ≤ r) (h1 : r ≤ 1) :
    min lo hi ≤ lo + (hi - lo) * r ∧ lo + (hi - lo) * r ≤ max lo hi := by
  rcases le_total lo hi with h | h
  · rw [min_eq_left h, max_eq_right h]
    constructor <;> nlinarith
  · rw [min_eq_right h, max_eq_left h]
    constructor <;> nlinarith

/-- C6 (amended): the claim holds once the first parameter's range is
nondegenerate (`pmin < pmax`); with `pmin = pmax` the Python code raises
`ZeroDivisionError` instead (see the counterexample).  For every candidate
whose parameter assignment starts with a value `p ∈ [pmin, pmax]` of a
declared parameter, `predict_effects` succeeds, and each ranged effect gets
a value inside the closed interval spanned by its endpoints, hitting `low`
at `p = pmin` and `high` at `p = pmax`. -/
theorem c6_ranged_effect_interpolation (cand : ActionCandidate)
    (pname : String) (p : ℤ) (rest : List (String × ℤ)) (pd : Parameter)
    (hps : cand.parameters = (pname, p) :: rest)
    (hpd : cand.action.parameters.find? (fun q => q.name == pname) = some pd)
    (hlt : pd.min_value < pd.max_value)
    (hp1 : pd.min_value ≤ p) (hp2 : p ≤ pd.max_value) :
    ∃ effs, predict_effects cand = some effs ∧
      ∀ e ∈ cand.action.effects, ∀ hi, e.max_effect = some hi →
        ∃ v, effect_value cand e = some v ∧ (e.metric, v) ∈ effs ∧
          min e.min_effect.value hi.value ≤ v ∧
          v ≤ max e.min_effect.value hi.value ∧
          (p = pd.min_value → v = e.min_effect.value) ∧
          (p = pd.max_value → v = hi.value) := by
  have hne : ¬pd.max_value = pd.min_value := by omega
  obtain ⟨l, hl, hmem⟩ := predict_effects_list_total cand cand.action.effects
    (fun e _ => effect_value_total cand pname p rest pd hps hpd hne e)
  refine ⟨l, hl, ?_⟩
  intro e he hi hhi
  have hv := effect_value_interp cand e pname p rest pd hi hps hpd hne hhi
  set d : ℚ := ((pd.max_value - pd.min_value : ℤ) : ℚ) with hd
  set num : ℚ := ((p - pd.min_value : ℤ) : ℚ) with hnum
  have hdpos : 0 < d := by
    rw [hd]
    exact_mod_cast sub_pos.mpr hlt
  have hr0 : 0 ≤ num / d := by
    apply div_nonneg _ hdpos.le
    rw [hnum]
    exact_mod_cast sub_nonneg.mpr hp1
  have hr1 : num / d ≤ 1 := by
    rw [div_le_one hdpos, hnum, hd]
    exact_mod_cast sub_le_sub_right hp2 _
  obtain ⟨hb1, hb2⟩ := interp_bounds e.min_effect.value hi.value (num / d) hr0 hr1
  refine ⟨_, hv, hmem e he _ hv, hb1, hb2, ?_, ?_⟩
  · intro hpmin
    have : num = 0 := by
      rw [hnum]
      exact_mod_cast sub_eq_zero.mpr hpmin
    rw [this]
    ring
  · intro hpmax
    have : num = d := by
      rw [hnum, hd, hpmax]
    rw [this, div_self hdpos.ne.symm]
    ring

/-- Candidate for the C6 witness: parameter `level ∈ 1..5` at value 2, with
a ranged effect `1 to 5` (value `1 + 4·(1/4) = 2`). -/
def c6good : ActionCandidate :=
  { action := { name := "act",
                parameters := [{ name := "level", min_value := 1, max_value := 5 }],
                effects := [{ metric := "m", min_effect := { value := 1 },
                              max_effect := some { value := 5 } }] },
    parameters := [("level", 2)] }

/-- Witness for the amended C6 at the concrete candidate `c6good`. -/
theorem c6_ranged_effect_interpolation_witness :
    ∃ effs, predict_effects c6good = some effs ∧
      ∀ e ∈ c6good.action.effects, ∀ hi, e.max_effect = some hi →
        ∃ v, effect_value c6good e = some v ∧ (e.metric, v) ∈ effs ∧
          min e.min_effect.value hi.value ≤ v ∧
          v ≤ max e.min_effect.value hi.value ∧
          ((2 : ℤ) = 1 → v = e.min_effect.value) ∧
          ((2 : ℤ) = 5 → v = hi.value) :=
  c6_ranged_effect_interpolation c6good "level" 2 []
    { name := "level", min_value := 1, max_value := 5 }
    (by rfl) (by rfl) (by norm_num) (by norm_num) (by norm_num)

/-! ## Theorems for claim C5 -/

/-- `System.validate()` (ast.py): the collected list of semantic errors, in
the order the Python code appends them (error text abbreviated, only
presence matters). -/
def System.validate (s : System) : List String :=
  (if s.name = "" then ["System name is required"] else []) ++
  (if s.states.isEmpty then ["At least one state is required"] else []) ++
  (if s.constraints.isEmpty ∧ s.objectives.isEmpty then
    ["At least one constraint or objective is required"] else []) ++
  (s.constraints.filterMap fun c =>
    if c.metric ∈ s.states.map StateDecl.name then none
    else some ("Constraint " ++ c.name ++ " references unknown state " ++ c.metric)) ++
  (s.objectives.filterMap fun o =>
    if o.metric ∈ s.states.map StateDecl.name then none
    else some ("Objective " ++ o.name ++ " references unknown state " ++ o.metric)) ++
  (s.objectives.filterMap fun o =>
    if 1 ≤ o.priority ∧ o.priority ≤ 10 then none
    else some ("Objective " ++ o.name ++ " has invalid priority"))

/-- System that is valid in every respect except that its single action
parameter has `min_value = 5 > 1 = max_value`. -/
def c5sys : System :=
  { name := "s5",
    states := [{ name := "temp", source := ["a"] }],
    constraints := [{ name := "c", metric := "temp", operator := "<=",
                      value := { value := 85 }, severity := Severity.critical }],
    actions := [{ name := "act",
                  parameters := [{ name := "level", min_value := 5, max_value := 1 }] }] }

/-- C5 is refuted at `c5sys`: it contains a parameter with
`min_value > max_value`, yet `System.validate` returns the empty list. -/
theorem c5_bad_range_passes_validation :
    System.validate c5sys = [] ∧
      ∃ a ∈ c5sys.actions, ∃ p ∈ a.parameters, p.max_value < p.min_value := by
  constructor
  · rfl
  · refine ⟨{ name := "act",
              parameters := [{ name := "level", min_value := 5, max_value := 1 }] },
        by simp [c5sys],
        { name := "level", min_value := 5, max_value := 1 }, by simp, by norm_num⟩

/-- C5 (amended): `System.validate` never inspects the actions list at all,
so parameter ranges with `min > max` produce no validation error; only the
name / state presence, constraint-or-objective presence, metric reference
and priority checks are performed. -/
theorem c5_validate_ignores_actions (s : System) (acts1 acts2 : List Action) :
    System.validate { s with actions := acts1 } =
      System.validate { s with actions := acts2 } := rfl

/-! ## Theorems for claim C9 -/

/-- The `for state_def in self.system.states` loop of `Engine.read_states`,
building the `values` dict.  A reader is modelled as
`String → Option (Option ℚ)`: outer `none` = no reader registered, inner
`none` = the reader raised. -/
def read_states_values (readers : String → Option (Option ℚ)) :
    List StateDecl → StateMap → StateMap
  | [], m => m
  | sd :: rest, m =>
      match readers sd.name with
      | some (some v) =>
          read_states_values readers rest
            (fun n => if n = sd.name then some v else m n)
      | some Option.none => read_states_values readers rest m
      | Option.none => read_states_values readers rest m

/-- `Engine.read_states()`: build `values` from the declared states' readers
(failures skipped) and merge it into the state manager via `update_all`. -/
def read_states (sys : System) (readers : String → Option (Option ℚ))
    (st : StateMap) : StateMap :=
  st.update_all (read_states_values readers sys.states (fun _ => none))

/-- A name no loop iteration writes keeps its incoming dict entry. -/
lemma read_states_values_not_mem (readers : String → Option (Option ℚ))
    (states : List StateDecl) (m : StateMap) (name : String)
    (h : name ∉ states.map StateDecl.name) :
    read_states_values readers states m name = m name := by
  induction states generalizing m with
  | nil => rfl
  | cons sd rest ih =>
      simp only [List.map_cons, List.mem_cons, not_or] at h
      cases hr : readers sd.name with
      | none => simp only [read_states_values, hr]; exact ih _ h.2
      | some r =>
          cases r with
          | none => simp only [read_states_values, hr]; exact ih _ h.2
          | some v =>
              simp only [read_states_values, hr]
              rw [ih _ h.2]
              simp [h.1]

/-- A name whose reader does not return a value is never written. -/
lemma read_states_values_fail (readers : String → Option (Option ℚ))
    (states : List StateDecl) (m : StateMap) (name : String)
    (h : ∀ v, readers name ≠ some (some v)) :
    read_states_values readers states m name = m name := by
  induction states generalizing m with
  | nil => rfl
  | cons sd rest ih =>
      cases hr : readers sd.name with
      | none => simp only [read_states_values, hr]; exact ih _
      | some r =>
          cases r with
          | none => simp only [read_states_values, hr]; exact ih _
          | some v =>
              simp only [read_states_values, hr]
              rw [ih _]
              have hne : name ≠ sd.name := by
                intro hq
                exact h v (hq ▸ hr)
              simp [hne]

/-- A declared name whose reader returns a value ends up bound to it. -/
lemma read_states_values_success (readers : String → Option (Option ℚ))
    (states : List StateDecl) (m : StateMap) (name : String) (v : ℚ)
    (h1 : name ∈ states.map StateDecl.name)
    (h2 : readers name = some (some v)) :
    read_states_values readers states m name = some v := by
  induction states generalizing m with
  | nil => simp at h1
  | cons sd rest ih =>
      simp only [List.map_cons, List.mem_cons] at h1
      cases hr : readers sd.name with
      | none =>
          rcases h1 with rfl | h1
          · rw [h2] at hr; exact absurd hr (by simp)
          · simp only [read_states_values, hr]
            exact ih _ h1
      | some r =>
          cases r with
          | none =>
              rcases h1 with rfl | h1
              · rw [h2] at hr; exact absurd hr (by simp)
              · simp only [read_states_values, hr]
                exact ih _ h1
          | some w =>
              simp only [read_states_values, hr]
              by_cases hmem : name ∈ rest.map StateDecl.name
              · exact ih _ hmem
              · rcases h1 with rfl | h1
                · rw [read_states_values_not_mem readers rest _ _ hmem]
                  rw [h2] at hr
                  simp only [Option.some.injEq] at hr
                  simp [hr]
                · exact absurd h1 hmem

/-- C9: during the read phase, a declared state whose reader raises keeps
its prior value in the state manager, while a declared state whose reader
returns a value is updated to it. -/
theorem c9_reader_failure_retains_value (sys : System)
    (readers : String → Option (Option ℚ)) (st : StateMap) (name : String)
    (hdecl : name ∈ sys.states.map StateDecl.name) :
    (readers name = some Option.none →
      (read_states sys readers st).get name = st.get name) ∧
    (∀ v, readers name = some (some v) →
      (read_states sys readers st).get name = v) := by
  constructor
  · intro hraise
    have hval : read_states_values readers sys.states (fun _ => none) name = none := by
      rw [read_states_values_fail]
      intro v hv
      rw [hraise] at hv
      simp at hv
    simp only [read_states, StateMap.update_all, StateMap.get, hval]
  · intro v hok
    have hval : read_states_values readers sys.states (fun _ => none) name = some v :=
      read_states_values_success readers sys.states _ name v hdecl hok
    simp only [read_states, StateMap.update_all, StateMap.get, hval,
      Option.getD_some]

/-- Two-state system for the C9 witness. -/
def c9sys : System :=
  { name := "s9",
    states := [{ name := "a", source := ["src", "a"] },
               { name := "b", source := ["src", "b"] }] }

/-- Readers for the C9 witness: the reader of `a` raises, the reader of `b`
returns 7. -/
def c9readers : String → Option (Option ℚ) :=
  fun n => if n = "a" then some Option.none
           else if n = "b" then some (some 7) else none

/-- Prior state for the C9 witness: `a = 3`. -/
def c9st : StateMap := fun n => if n = "a" then some 3 else none

/-- Witness for C9: after the read phase, `a` keeps its prior value 3 and
`b` is updated to 7. -/
theorem c9_reader_failure_retains_value_witness :
    (read_states c9sys c9readers c9st).get "a" = c9st.get "a" ∧
    (read_states c9sys c9readers c9st).get "b" = (7 : ℚ) :=
  ⟨(c9_reader_failure_retains_value c9sys c9readers c9st "a"
      (by simp [c9sys])).1 (by rfl),
   (c9_reader_failure_retains_value c9sys c9readers c9st "b"
      (by simp [c9sys])).2 7 (by rfl)⟩

/-! ## Lexer (src/parser/lexer.py)

The lexer is embedded as a state machine over the list of remaining source
characters.  `remaining` is `source[pos:]`, and `line`/`column`/`tokens`/
`indent_stack` mirror the fields of the Python `Lexer` object (the stack is
kept top-first, so Python `append`/`pop` at the end become `cons`/tail at
the head).  Columns are integers because `_add_token` computes
`self.column - len(value)`, which Python lets go below 1. -/

/-- `TokenType` (lexer.py). -/
inductive TokenType where
  | SYSTEM | STATE | CONSTRAINTS | OBJECTIVES | ACTIONS | TICK | PARAMETERS
  | EFFECTS | COST | TARGET | MIN | MAX | TO | INTERVAL | ACTION_THRESHOLD
  | MODE
  | VERSION | CRITICAL | WARNING | PRIORITY
  | LOW | MEDIUM | HIGH
  | CONTINUOUS | REACTIVE
  | ARROW_LEFT | ARROW_RIGHT | COLON | COMMA | DOT | LPAREN | RPAREN
  | LBRACKET | RBRACKET | RANGE
  | LTE | GTE | LT | GT | EQ | NEQ
  | IDENTIFIER | NUMBER | STRING | UNIT
  | NEWLINE | INDENT | DEDENT | EOF
deriving DecidableEq, Repr

/-- `Token` (lexer.py). -/
structure Token where
  type : TokenType
  value : String
  line : ℕ
  column : ℤ
deriving DecidableEq, Repr

/-- `LexerError` (lexer.py): message plus position. -/
structure LexerError where
  message : String
  line : ℕ
  column : ℤ
deriving DecidableEq, Repr

/-- The mutable fields of the Python `Lexer` object. -/
structure LexState where
  remaining : List Char
  line : ℕ
  column : ℤ
  tokens : List Token
  indent_stack : List ℕ
deriving DecidableEq, Repr

/-- `Lexer._add_token(type, value)`: the recorded column is
`self.column - len(value)`. -/
def addTok (st : LexState) (t : TokenType) (v : String) : LexState :=
  { st with tokens := st.tokens ++
      [{ type := t, value := v, line := st.line,
         column := st.column - (v.length : ℤ) }] }

/-- `Lexer.KEYWORDS`. -/
def KEYWORDS : List (String × TokenType) := [
  ("system", TokenType.SYSTEM), ("state", TokenType.STATE),
  ("constraints", TokenType.CONSTRAINTS), ("objectives", TokenType.OBJECTIVES),
  ("actions", TokenType.ACTIONS), ("tick", TokenType.TICK),
  ("parameters", TokenType.PARAMETERS), ("effects", TokenType.EFFECTS),
  ("cost", TokenType.COST), ("target", TokenType.TARGET),
  ("min", TokenType.MIN), ("max", TokenType.MAX), ("to", TokenType.TO),
  ("interval", TokenType.INTERVAL),
  ("action_threshold", TokenType.ACTION_THRESHOLD), ("mode", TokenType.MODE),
  ("low", TokenType.LOW), ("medium", TokenType.MEDIUM),
  ("high", TokenType.HIGH), ("continuous", TokenType.CONTINUOUS),
  ("reactive", TokenType.REACTIVE)]

/-- `Lexer.UNITS`. -/
def UNITS : List String :=
  ["°C", "°F", "K", "%", "B", "KB", "MB", "GB", "TB", "ms", "s", "m", "h",
   "Hz", "kHz", "MHz", "GHz", "W", "kW", "mW", "dB", "dBA"]

/-- The annotation-keyword table of `Lexer._read_annotation`. -/
def ANNOTATIONS : List (String × TokenType) := [
  ("version", TokenType.VERSION), ("critical", TokenType.CRITICAL),
  ("warning", TokenType.WARNING), ("priority", TokenType.PRIORITY)]

/-- Python `str.lower()` (the DSL's keywords and units are ASCII), stated
over the character list so that it evaluates inside the kernel. -/
def str_lower (s : String) : String := String.mk (s.data.map Char.toLower)

/-- Keyword lookup used by `_read_identifier`. -/
def keywordLookup (s : String) : Option TokenType :=
  (KEYWORDS.find? fun p => p.1 == s).map fun p => p.2

/-- Annotation-keyword lookup used by `_read_annotation`. -/
def annotLookup (s : String) : Option TokenType :=
  (ANNOTATIONS.find? fun p => p.1 == s).map fun p => p.2

/-- The `while self.indent_stack[-1] > indent` loop of
`Lexer._handle_indentation`: pop and emit one `DEDENT` per stack entry
greater than the new width. -/
def dedent_loop (indent : ℕ) (line : ℕ) (column : ℤ) :
    List ℕ → List Token → List ℕ × List Token
  | [], toks => ([], toks)
  | top :: rest, toks =>
      if indent < top then
        dedent_loop indent line column rest
          (toks ++ [{ type := TokenType.DEDENT, value := "", line := line,
                      column := column }])
      else (top :: rest, toks)

/-- `Lexer._handle_indentation()`: count leading spaces; skip blank and
comment-only lines; push and emit `INDENT` when wider than the stack top,
else pop and emit `DEDENT`s for every stack entry wider than the new
width (a non-matching width raises nothing). -/
def handle_indentation (st : LexState) : LexState :=
  let sp := st.remaining.takeWhile fun c => c = ' '
  let rest := st.remaining.dropWhile fun c => c = ' '
  let indent := sp.length
  let st1 := { st with remaining := rest, column := st.column + indent }
  match rest with
  | [] => st1
  | c :: _ =>
      if c = '\n' ∨ c = '#' then st1
      else
        let current := st1.indent_stack.headD 0
        if current < indent then
          addTok { st1 with indent_stack := indent :: st1.indent_stack }
            TokenType.INDENT (String.mk sp)
        else
          let p := dedent_loop indent st1.line st1.column st1.indent_stack st1.tokens
          { st1 with indent_stack := p.1, tokens := p.2 }

/-- `Lexer._skip_comment()`. -/
def skip_comment (st : LexState) : LexState :=
  let run := st.remaining.takeWhile fun c => ¬c = '\n'
  { st with
    remaining := st.remaining.dropWhile (fun c => ¬c = '\n'),
    column := st.column + run.length }

/-- The two-character operator table of `Lexer._match_operator`. -/
def two_char_op (c1 c2 : Char) : Option TokenType :=
  if c1 = '<' ∧ c2 = '-' then some TokenType.ARROW_LEFT
  else if c1 = '-' ∧ c2 = '>' then some TokenType.ARROW_RIGHT
  else if c1 = '<' ∧ c2 = '=' then some TokenType.LTE
  else if c1 = '>' ∧ c2 = '=' then some TokenType.GTE
  else if c1 = '=' ∧ c2 = '=' then some TokenType.EQ
  else if c1 = '!' ∧ c2 = '=' then some TokenType.NEQ
  else if c1 = '.' ∧ c2 = '.' then some TokenType.RANGE
  else none

/-- The one-character operator table of `Lexer._match_operator`. -/
def one_char_op (c : Char) : Option TokenType :=
  if c = ':' then some TokenType.COLON
  else if c = ',' then some TokenType.COMMA
  else if c = '.' then some TokenType.DOT
  else if c = '(' then some TokenType.LPAREN
  else if c = ')' then some TokenType.RPAREN
  else if c = '[' then some TokenType.LBRACKET
  else if c = ']' then some TokenType.RBRACKET
  else if c = '<' then some TokenType.LT
  else if c = '>' then some TokenType.GT
  else none

/-- `Lexer._match_operator()`: two-character operators are tokenized before
advancing (hence their column is `col - 2`), one-character ones after. -/
def match_operator (st : LexState) : Option LexState :=
  match st.remaining with
  | c1 :: c2 :: rest =>
      (match two_char_op c1 c2 with
       | some t =>
           some { addTok st t (String.mk [c1, c2]) with
                  remaining := rest, column := st.column + 2 }
       | none =>
           match one_char_op c1 with
           | some t =>
               some (addTok { st with
                              remaining := c2 :: rest,
                              column := st.column + 1 } t (String.mk [c1]))
           | none => none)
  | [c1] =>
      (match one_char_op c1 with
       | some t =>
           some (addTok { st with
                          remaining := [],
                          column := st.column + 1 } t (String.mk [c1]))
       | none => none)
  | [] => none

/-- `Lexer._read_string()`. -/
def read_string (st : LexState) : Except LexerError LexState :=
  match st.remaining with
  | '"' :: rest =>
      let content := rest.takeWhile fun c => ¬c = '"'
      if content.contains '\n' then
        let pre := content.takeWhile fun c => ¬c = '\n'
        Except.error { message := "Unterminated string", line := st.line,
                       column := st.column + 1 + pre.length }
      else
        match rest.dropWhile (fun c => ¬c = '"') with
        | _ :: rest2 =>
            Except.ok (addTok { st with
                remaining := rest2,
                column := st.column + content.length + 2 }
              TokenType.STRING (String.mk content))
        | [] =>
            Except.error { message := "Unterminated string", line := st.line,
                           column := st.column + 1 + content.length }
  | _ => Except.ok st

/-- The `%` and alphabetic-unit checks at the end of `Lexer._read_number`;
`consumed` holds characters already eaten since `unit_start` (a lone `°`),
which Python prepends to the candidate unit text. -/
def unit_percent_alpha (st : LexState) (consumed : List Char) : LexState :=
  match st.remaining with
  | c :: rest =>
      if c = '%' then
        addTok { st with remaining := rest, column := st.column + 1 }
          TokenType.UNIT "%"
      else if c.isAlpha then
        let run := st.remaining.takeWhile Char.isAlphanum
        let r := st.remaining.dropWhile Char.isAlphanum
        let st1 := { st with remaining := r, column := st.column + run.length }
        let unit := String.mk (consumed ++ run)
        if UNITS.contains unit ∨ ["ms", "s", "m", "h"].contains (str_lower unit) then
          addTok st1 TokenType.UNIT unit
        else st1
      else st
  | [] => st

/-- The unit recognition at the end of `Lexer._read_number`: degree units,
percent, alphanumeric runs. -/
def read_number_unit (st : LexState) : LexState :=
  match st.remaining with
  | c :: rest =>
      if c = '°' then
        let st1 := { st with remaining := rest, column := st.column + 1 }
        match rest with
        | d :: rest2 =>
            if d = 'C' ∨ d = 'F' ∨ d = 'K' then
              addTok { st1 with remaining := rest2, column := st1.column + 1 }
                TokenType.UNIT (String.mk ['°', d])
            else unit_percent_alpha st1 ['°']
        | [] => unit_percent_alpha st1 ['°']
      else unit_percent_alpha st []
  | [] => unit_percent_alpha st []

/-- `Lexer._read_number()`: optional sign, digits, optional fraction, one
`NUMBER` token, then the unit checks. -/
def read_number (st : LexState) : LexState :=
  let p :=
    match st.remaining with
    | c :: rest => if c = '+' ∨ c = '-' then ([c], rest) else ([], st.remaining)
    | [] => (([] : List Char), ([] : List Char))
  let sign := p.1
  let ds := p.2.takeWhile Char.isDigit
  let r2 := p.2.dropWhile Char.isDigit
  let q :=
    match r2 with
    | c :: rest2 =>
        if c = '.' then
          match rest2 with
          | d :: _ =>
              if d.isDigit then
                ('.' :: rest2.takeWhile Char.isDigit,
                 rest2.dropWhile Char.isDigit)
              else (([] : List Char), r2)
          | [] => (([] : List Char), r2)
        else (([] : List Char), r2)
    | [] => (([] : List Char), r2)
  let num := sign ++ ds ++ q.1
  let stNum := addTok { st with
      remaining := q.2,
      column := st.column + num.length } TokenType.NUMBER (String.mk num)
  read_number_unit stNum

/-- `Lexer._read_identifier()`. -/
def read_identifier (st : LexState) : LexState :=
  let run := st.remaining.takeWhile fun c => c.isAlphanum ∨ c = '_'
  let rest := st.remaining.dropWhile fun c => c.isAlphanum ∨ c = '_'
  let value := String.mk run
  let st1 := { st with remaining := rest, column := st.column + run.length }
  match keywordLookup (str_lower value) with
  | some t => addTok st1 t value
  | none => addTok st1 TokenType.IDENTIFIER value

/-- `Lexer._read_annotation()`: `@` plus a name; unknown names raise. -/
def read_annot (st : LexState) : Except LexerError LexState :=
  match st.remaining with
  | '@' :: rest =>
      let run := rest.takeWhile fun c => c.isAlphanum ∨ c = '_'
      let rest2 := rest.dropWhile fun c => c.isAlphanum ∨ c = '_'
      let name := String.mk run
      let st1 := { st with
                   remaining := rest2,
                   column := st.column + 1 + run.length }
      match annotLookup (str_lower name) with
      | some t => Except.ok (addTok st1 t name)
      | none =>
          Except.error { message := "Unknown annotation: @" ++ name,
                         line := st1.line, column := st1.column }
  | _ => Except.ok st

/-- One iteration of the `while self.pos < len(self.source)` loop of
`Lexer.tokenize`, fuelled; every iteration on a nonempty input consumes at
least one character, so `source.length + 1` units of fuel always suffice. -/
def tokenize_loop : ℕ → LexState → Except LexerError LexState
  | 0, st => Except.ok st
  | fuel + 1, st =>
      match st.remaining with
      | [] => Except.ok st
      | _ =>
          let st := if st.column = 1 then handle_indentation st else st
          match st.remaining with
          | c :: rest =>
              if (c = ' ' ∨ c = '\t') ∧ 1 < st.column then
                tokenize_loop fuel
                  { st with remaining := rest, column := st.column + 1 }
              else if c = '\n' then
                let st1 := addTok st TokenType.NEWLINE "\n"
                tokenize_loop fuel
                  { st1 with
                    remaining := rest, line := st1.line + 1,
                    column := 1 }
              else if c = '#' then
                tokenize_loop fuel (skip_comment st)
              else
                match match_operator st with
                | some st1 => tokenize_loop fuel st1
                | none =>
                    if c = '"' then
                      match read_string st with
                      | Except.error e => Except.error e
                      | Except.ok st1 => tokenize_loop fuel st1
                    else
                      let aheadDigit : Bool :=
                        match rest with
                        | d :: _ => d.isDigit
                        | [] => false
                      if c.isDigit ∨ ((c = '+' ∨ c = '-') ∧ aheadDigit = true) then
                      tokenize_loop fuel (read_number st)
                    else if c.isAlpha ∨ c = '_' then
                      tokenize_loop fuel (read_identifier st)
                    else if c = '@' then
                      match read_annot st with
                      | Except.error e => Except.error e
                      | Except.ok st1 => tokenize_loop fuel st1
                    else
                      Except.error { message := "Unexpected character",
                                     line := st.line, column := st.column }
          | [] =>
              Except.error { message := "Unexpected character",
                             line := st.line, column := st.column }

/-- The `while len(self.indent_stack) > 1` flush at the end of
`Lexer.tokenize`. -/
def flush_dedents (line : ℕ) (column : ℤ) :
    List ℕ → List Token → List ℕ × List Token
  | _ :: s :: rest, toks =>
      flush_dedents line column (s :: rest)
        (toks ++ [{ type := TokenType.DEDENT, value := "", line := line,
                    column := column }])
  | s, toks => (s, toks)

/-- `Lexer.tokenize()`: run the scanning loop from the initial state, flush
outstanding dedents, and terminate with `EOF`. -/
def tokenize (source : String) : Except LexerError (List Token) :=
  let st0 : LexState := { remaining := source.data, line := 1, column := 1,
                          tokens := [], indent_stack := [0] }
  match tokenize_loop (source.length + 1) st0 with
  | Except.error e => Except.error e
  | Except.ok st =>
      let p := flush_dedents st.line st.column st.indent_stack st.tokens
      Except.ok (p.2 ++ [{ type := TokenType.EOF, value := "",
                           line := st.line, column := st.column }])

/-! ## Theorems for claim C7 -/

/-- A scan stops exactly at the end of a fully-satisfying prefix. -/
lemma span_prefix {α : Type} (p : α → Bool) (l r : List α)
    (hl : ∀ x ∈ l, p x = true) (hr : ∀ c, r.head? = some c → p c = false) :
    (l ++ r).takeWhile p = l ∧ (l ++ r).dropWhile p = r := by
  induction l with
  | nil =>
      cases r with
      | nil => simp
      | cons c cs =>
          have hc := hr c rfl
          simp [List.takeWhile_cons, List.dropWhile_cons, hc]
  | cons a l ih =>
      have ha := hl a (List.mem_cons_self a l)
      obtain ⟨h1, h2⟩ := ih (fun x hx => hl x (List.mem_cons_of_mem _ hx))
      simp [List.takeWhile_cons, List.dropWhile_cons, ha, h1, h2]

/-- The dedent loop pops exactly the stack entries wider than the new
width, emitting one `DEDENT` per popped entry, and never errors. -/
lemma dedent_loop_eval (indent line : ℕ) (column : ℤ) (stack : List ℕ)
    (toks : List Token) :
    dedent_loop indent line column stack toks =
      (stack.dropWhile (fun w => decide (indent < w)),
       toks ++ (stack.takeWhile (fun w => decide (indent < w))).map
         (fun _ => { type := TokenType.DEDENT, value := "", line := line,
                     column := column })) := by
  induction stack generalizing toks with
  | nil => simp [dedent_loop]
  | cons top rest ih =>
      by_cases h : indent < top
      · simp [dedent_loop, h, List.takeWhile_cons, List.dropWhile_cons, ih]
      · simp [dedent_loop, h, List.takeWhile_cons, List.dropWhile_cons]

/-- Equality of lexer results is decidable (needed to evaluate `tokenize`
on concrete sources inside proofs). -/
instance {ε α : Type} [DecidableEq ε] [DecidableEq α] :
    DecidableEq (Except ε α) := fun x y =>
  match x, y with
  | Except.error a, Except.error b =>
      if h : a = b then isTrue (by rw [h]) else isFalse (by simp [h])
  | Except.ok a, Except.ok b =>
      if h : a = b then isTrue (by rw [h]) else isFalse (by simp [h])
  | Except.error _, Except.ok _ => isFalse (by simp)
  | Except.ok _, Except.error _ => isFalse (by simp)

/-- C7 is refuted on the source `"a:\n    b\n  c\n"`: line 3 has width 2,
which is smaller than the stack top 4 but equal to no stack width
(`{0, 4}`), yet tokenization succeeds with a single `DEDENT` and no
lexical error. -/
theorem c7_mismatched_dedent_no_error :
    tokenize "a:\n    b\n  c\n" = Except.ok [
      { type := TokenType.IDENTIFIER, value := "a", line := 1, column := 1 },
      { type := TokenType.COLON, value := ":", line := 1, column := 2 },
      { type := TokenType.NEWLINE, value := "\n", line := 1, column := 2 },
      { type := TokenType.INDENT, value := "    ", line := 2, column := 1 },
      { type := TokenType.IDENTIFIER, value := "b", line := 2, column := 5 },
      { type := TokenType.NEWLINE, value := "\n", line := 2, column := 5 },
      { type := TokenType.DEDENT, value := "", line := 3, column := 3 },
      { type := TokenType.IDENTIFIER, value := "c", line := 3, column := 3 },
      { type := TokenType.NEWLINE, value := "\n", line := 3, column := 3 },
      { type := TokenType.EOF, value := "", line := 4, column := 1 }] := by
  decide

/-- C7 (amended): on a line whose indentation width is smaller than the
stack top — matching or not — `_handle_indentation` emits one `DEDENT` per
stack entry wider than the new width, pops those entries, and raises
nothing; a width matching no stack entry is accepted silently. -/
theorem c7_dedent_mismatch_accepted (st : LexState)
    (sp : List Char) (c : Char) (rest : List Char) (top : ℕ) (stack : List ℕ)
    (hrem : st.remaining = sp ++ c :: rest)
    (hsp : ∀ x ∈ sp, x = ' ')
    (hc : ¬c = ' ') (hc1 : ¬(c = '\n' ∨ c = '#'))
    (hstack : st.indent_stack = top :: stack)
    (hlt : sp.length < top) :
    handle_indentation st =
      { st with
        remaining := c :: rest,
        column := st.column + sp.length,
        indent_stack :=
          (top :: stack).dropWhile (fun w => decide (sp.length < w)),
        tokens := st.tokens ++
          ((top :: stack).takeWhile (fun w => decide (sp.length < w))).map
            (fun _ => { type := TokenType.DEDENT, value := "",
                        line := st.line, column := st.column + sp.length }) } := by
  obtain ⟨htake, hdrop⟩ := span_prefix (fun x => decide (x = ' ')) sp (c :: rest)
    (fun x hx => by simp [hsp x hx])
    (fun d hd => by
      simp only [List.head?_cons, Option.some.injEq] at hd
      subst hd
      simp [hc])
  unfold handle_indentation
  rw [hrem, htake, hdrop]
  dsimp only []
  rw [if_neg hc1, hstack]
  simp only [List.headD_cons]
  rw [if_neg (by omega)]
  rw [dedent_loop_eval]

/-- Witness for the amended C7: dedenting to width 2 over the stack
`[4, 0]` pops the 4, emits one `DEDENT`, and leaves the lexer in a normal
state. -/
theorem c7_dedent_mismatch_accepted_witness :
    handle_indentation { remaining := "  x".data, line := 3, column := 1,
                         tokens := [], indent_stack := [4, 0] } =
      { remaining := ['x'], line := 3, column := 3,
        tokens := [{ type := TokenType.DEDENT, value := "", line := 3,
                     column := 3 }],
        indent_stack := [0] } := by
  have h := c7_dedent_mismatch_accepted
    { remaining := "  x".data, line := 3, column := 1, tokens := [],
      indent_stack := [4, 0] }
    [' ', ' '] 'x' [] 4 [0] rfl (by decide) (by decide) (by decide) rfl
    (by decide)
  simpa using h

/-! ## Theorems for claim C10 -/

/-- Two characters differ when a Boolean predicate separates them. -/
lemma ne_of_pred {p : Char → Bool} (c d : Char) (hc : p c = true)
    (hd : p d = false) : ¬c = d := by
  intro he
  subst he
  rw [hc] at hd
  cases hd

/-- An alphabetic character is not a digit. -/
lemma isAlpha_isDigit_false (c : Char) (h : c.isAlpha = true) :
    c.isDigit = false := by
  simp only [Char.isAlpha, Char.isUpper, Char.isLower, Char.isDigit,
    Bool.or_eq_true, Bool.and_eq_true, decide_eq_true_eq] at h ⊢
  rcases h with ⟨h1, h2⟩ | ⟨h1, h2⟩
  · rw [Bool.and_eq_false_iff]
    right
    rw [decide_eq_false_iff_not]
    intro hle
    have q1 : (65 : ℕ) ≤ c.val.toNat := h1
    have q2 : c.val.toNat ≤ 57 := hle
    omega
  · rw [Bool.and_eq_false_iff]
    right
    rw [decide_eq_false_iff_not]
    intro hle
    have q1 : (97 : ℕ) ≤ c.val.toNat := h1
    have q2 : c.val.toNat ≤ 57 := hle
    omega

/-- The alphabetic-unit scan of `_read_number` on an unknown unit: the run
is consumed whole, but no token is emitted and nothing is raised. -/
lemma unit_scan_unknown_dropped (st : LexState) (u rest : List Char)
    (hrem : st.remaining = u ++ rest)
    (hu0 : u ≠ []) (hu : ∀ x ∈ u, x.isAlphanum = true)
    (huh : ∀ c, u.head? = some c → c.isAlpha = true)
    (hrest : ∀ c, rest.head? = some c → c.isAlphanum = false)
    (hunit : ¬(UNITS.contains (String.mk u) = true ∨
       (["ms", "s", "m", "h"].contains (str_lower (String.mk u))) = true)) :
    read_number_unit st =
      { st with remaining := rest, column := st.column + u.length } := by
  obtain ⟨u0, utail, rfl⟩ := List.exists_cons_of_ne_nil hu0
  have halpha : u0.isAlpha = true := huh u0 rfl
  obtain ⟨htake, hdrop⟩ := span_prefix Char.isAlphanum (u0 :: utail) rest hu hrest
  unfold read_number_unit
  rw [hrem]
  simp only [List.cons_append]
  rw [if_neg (ne_of_pred u0 '°' halpha (by decide))]
  unfold unit_percent_alpha
  rw [hrem]
  simp only [List.cons_append]
  rw [if_neg (ne_of_pred u0 '%' halpha (by decide)), if_pos halpha]
  rw [show (u0 :: utail) ++ rest = (u0 :: (utail ++ rest)) from rfl] at htake hdrop
  rw [htake, hdrop]
  rw [if_neg (by simpa using hunit)]

/-- aux: length of a string built from a character list. -/
lemma string_mk_length (l : List Char) : (String.mk l).length = l.length := rfl

/-- C10: whenever a number literal is immediately followed (no whitespace)
by an alphabetic-leading alphanumeric run that is not in the known-unit set
(nor `ms`/`s`/`m`/`h` up to case), `_read_number` consumes the number and
the entire run but appends only the `NUMBER` token: the run produces no
token and raises no error. -/
theorem c10_unknown_unit_silently_dropped (st : LexState)
    (sign ds frac u rest : List Char)
    (hrem : st.remaining = sign ++ ds ++ frac ++ u ++ rest)
    (hsign : sign = [] ∨ sign = ['+'] ∨ sign = ['-'])
    (hds0 : ds ≠ []) (hds : ∀ x ∈ ds, x.isDigit = true)
    (hfrac : frac = [] ∨
      ∃ fds, frac = '.' :: fds ∧ fds ≠ [] ∧ ∀ x ∈ fds, x.isDigit = true)
    (hu0 : u ≠ []) (hu : ∀ x ∈ u, x.isAlphanum = true)
    (huh : ∀ c, u.head? = some c → c.isAlpha = true)
    (hrest : ∀ c, rest.head? = some c → c.isAlphanum = false)
    (hunit : ¬(UNITS.contains (String.mk u) = true ∨
       (["ms", "s", "m", "h"].contains (str_lower (String.mk u))) = true)) :
    read_number st =
      { st with
        remaining := rest,
        column := st.column + ((sign ++ ds ++ frac).length : ℤ) + (u.length : ℤ),
        tokens := st.tokens ++
          [{ type := TokenType.NUMBER,
             value := String.mk (sign ++ ds ++ frac),
             line := st.line, column := st.column }] } := by
  obtain ⟨u0, utail, rfl⟩ := List.exists_cons_of_ne_nil hu0
  have halpha : u0.isAlpha = true := huh u0 rfl
  obtain ⟨d0, dtail, rfl⟩ := List.exists_cons_of_ne_nil hds0
  have hd0 : d0.isDigit = true := hds d0 (List.mem_cons_self _ _)
  have hnosign : ¬(d0 = '+' ∨ d0 = '-') := by
    rintro (rfl | rfl) <;> simp at hd0
  rcases hfrac with rfl | ⟨fds, rfl, hfds0, hfds⟩
  · obtain ⟨hdtake, hddrop⟩ := span_prefix Char.isDigit (d0 :: dtail)
      ((u0 :: utail) ++ rest) hds
      (by
        intro c hc
        simp only [List.cons_append, List.head?_cons, Option.some.injEq] at hc
        subst hc
        exact isAlpha_isDigit_false u0 halpha)
    simp only [List.cons_append, List.nil_append, List.append_assoc,
      List.append_nil] at hdtake hddrop hrem ⊢
    unfold read_number
    rw [hrem]
    rcases hsign with rfl | rfl | rfl
    · simp only [List.nil_append]
      rw [if_neg hnosign]
      try dsimp only []
      rw [hdtake, hddrop]
      try dsimp only []
      rw [if_neg (ne_of_pred u0 '.' halpha (by decide))]
      try dsimp only []
      refine (unit_scan_unknown_dropped _ (u0 :: utail) rest rfl (by simp)
        hu huh hrest hunit).trans ?_
      simp only [addTok, string_mk_length, List.append_nil, List.nil_append,
        List.cons_append, List.append_assoc, add_sub_cancel_right]
    · simp only [List.cons_append, List.nil_append]
      rw [if_pos (Or.inl trivial)]
      try dsimp only []
      rw [hdtake, hddrop]
      try dsimp only []
      rw [if_neg (ne_of_pred u0 '.' halpha (by decide))]
      try dsimp only []
      refine (unit_scan_unknown_dropped _ (u0 :: utail) rest rfl (by simp)
        hu huh hrest hunit).trans ?_
      simp only [addTok, string_mk_length, List.append_nil, List.nil_append,
        List.cons_append, List.append_assoc, add_sub_cancel_right]
    · simp only [List.cons_append, List.nil_append]
      rw [if_pos (Or.inr trivial)]
      try dsimp only []
      rw [hdtake, hddrop]
      try dsimp only []
      rw [if_neg (ne_of_pred u0 '.' halpha (by decide))]
      try dsimp only []
      refine (unit_scan_unknown_dropped _ (u0 :: utail) rest rfl (by simp)
        hu huh hrest hunit).trans ?_
      simp only [addTok, string_mk_length, List.append_nil, List.nil_append,
        List.cons_append, List.append_assoc, add_sub_cancel_right]
  · obtain ⟨f0, ftail, rfl⟩ := List.exists_cons_of_ne_nil hfds0
    have hf0 : f0.isDigit = true := hfds f0 (List.mem_cons_self _ _)
    obtain ⟨hdtake, hddrop⟩ := span_prefix Char.isDigit (d0 :: dtail)
      (('.' :: (f0 :: ftail)) ++ (u0 :: utail) ++ rest) hds
      (by
        intro c hc
        simp only [List.cons_append, List.head?_cons, Option.some.injEq] at hc
        subst hc
        decide)
    obtain ⟨hftake, hfdrop⟩ := span_prefix Char.isDigit (f0 :: ftail)
      ((u0 :: utail) ++ rest) hfds
      (by
        intro c hc
        simp only [List.cons_append, List.head?_cons, Option.some.injEq] at hc
        subst hc
        exact isAlpha_isDigit_false u0 halpha)
    simp only [List.cons_append, List.nil_append, List.append_assoc,
      List.append_nil] at hdtake hddrop hftake hfdrop hrem ⊢
    unfold read_number
    rw [hrem]
    rcases hsign with rfl | rfl | rfl
    · simp only [List.nil_append]
      rw [if_neg hnosign]
      try dsimp only []
      rw [hdtake, hddrop]
      try dsimp only []
      rw [if_pos rfl]
      try dsimp only []
      rw [if_pos hf0]
      try dsimp only []
      rw [hftake, hfdrop]
      try dsimp only []
      refine (unit_scan_unknown_dropped _ (u0 :: utail) rest rfl (by simp)
        hu huh hrest hunit).trans ?_
      simp only [addTok, string_mk_length, List.append_nil, List.nil_append,
        List.cons_append, List.append_assoc, add_sub_cancel_right]
    · simp only [List.cons_append, List.nil_append]
      rw [if_pos (Or.inl trivial)]
      try dsimp only []
      rw [hdtake, hddrop]
      try dsimp only []
      rw [if_pos rfl]
      try dsimp only []
      rw [if_pos hf0]
      try dsimp only []
      rw [hftake, hfdrop]
      try dsimp only []
      refine (unit_scan_unknown_dropped _ (u0 :: utail) rest rfl (by simp)
        hu huh hrest hunit).trans ?_
      simp only [addTok, string_mk_length, List.append_nil, List.nil_append,
        List.cons_append, List.append_assoc, add_sub_cancel_right]
    · simp only [List.cons_append, List.nil_append]
      rw [if_pos (Or.inr trivial)]
      try dsimp only []
      rw [hdtake, hddrop]
      try dsimp only []
      rw [if_pos rfl]
      try dsimp only []
      rw [if_pos hf0]
      try dsimp only []
      rw [hftake, hfdrop]
      try dsimp only []
      refine (unit_scan_unknown_dropped _ (u0 :: utail) rest rfl (by simp)
        hu huh hrest hunit).trans ?_
      simp only [addTok, string_mk_length, List.append_nil, List.nil_append,
        List.cons_append, List.append_assoc, add_sub_cancel_right]

/-- Witness for C10 at the rendered scientific-notation fragment `1e-05`:
lexing the number `1` followed by the unknown run `e` consumes the `e` and
emits only the `NUMBER` token. -/
theorem c10_unknown_unit_silently_dropped_witness :
    read_number { remaining := "1e-05".data, line := 1, column := 1,
                  tokens := [], indent_stack := [0] } =
      { remaining := "-05".data, line := 1, column := 3,
        tokens := [{ type := TokenType.NUMBER, value := "1", line := 1,
                     column := 1 }],
        indent_stack := [0] } := by
  have h := c10_unknown_unit_silently_dropped
    { remaining := "1e-05".data, line := 1, column := 1, tokens := [],
      indent_stack := [0] }
    [] ['1'] [] ['e'] "-05".data rfl (Or.inl rfl) (by decide) (by decide)
    (Or.inl rfl) (by decide) (by decide) (by decide) (by decide) (by decide)
  simpa using h

/-! ## Theorem for claim C4 -/

/-- C4: the renderer (`System.__str__`) prints numeric values with Python
`str(float)`, which uses scientific notation for small magnitudes — the
value parsed from the source literal `0.00001` renders as `1e-05`.  The
lexer has no exponent syntax: on the rendered constraint text it produces
`NUMBER "1"` (silently dropping `e` as an unknown unit) followed by
`NUMBER "-05"`, so re-parsing the rendered system raises a parse error
(`Expected @critical or @warning`) instead of returning an equal AST. -/
theorem c4_rendered_value_unlexable :
    (tokenize "c1: temperature <= 1e-05 @critical").map
        (List.map fun t => (t.type, t.value)) =
      Except.ok [(TokenType.IDENTIFIER, "c1"), (TokenType.COLON, ":"),
        (TokenType.IDENTIFIER, "temperature"), (TokenType.LTE, "<="),
        (TokenType.NUMBER, "1"), (TokenType.NUMBER, "-05"),
        (TokenType.CRITICAL, "critical"), (TokenType.EOF, "")] := by decide

end NovaIR
